import Mathlib

/-!
Verification of the MAAS region-controller IP/DHCP slice: a shallow
embedding of the subnet/VLAN/IP-range repositories, the generic service
layer (etag checks, hooks), the static-IP DHCP workflow hooks, the
workflow-call merging adapter, and the VLAN keyset pagination, with
theorems checking the specification's claims against the embedded code.
-/

namespace Maas

/-! ## IP addresses and CIDRs

`netaddr.IPAddress` is modelled as a tagged numeric value: an IPv4
address is a 32-bit number, an IPv6 address a 128-bit number. -/

inductive IPAddr where
  | v4 (val : Nat) : IPAddr
  | v6 (val : Nat) : IPAddr
deriving DecidableEq, Repr

/-- `netaddr.IPAddress.is_ipv4_mapped`: true for an IPv6 address of the
form `::ffff:a.b.c.d`, i.e. whose value shifted right by 32 bits equals
`0xffff`. -/
def IPAddr.is_ipv4_mapped : IPAddr → Bool
  | .v4 _ => false
  | .v6 v => v / 2 ^ 32 == 0xffff

/-- `netaddr.IPAddress.ipv4()`: the low 32 bits of an IPv4-mapped IPv6
address, as an IPv4 address (identity on IPv4). -/
def IPAddr.ipv4 : IPAddr → IPAddr
  | .v4 v => .v4 v
  | .v6 v => .v4 (v % 2 ^ 32)

/-- A CIDR (postgres `cidr` column): address family, network address
value and mask length. -/
structure Cidr where
  isV4 : Bool
  addr : Nat
  prefixLen : Nat
deriving DecidableEq, Repr

/-- The postgres containment operator `cidr >> inet` used by
`find_best_subnet_for_ip` (`SubnetTable.c.cidr.op(">>")(ip_addr)`).
Postgres `network_sup`: the families agree, the left mask length is
strictly smaller than the right one (a bare `inet` host address has mask
length 32 resp. 128), and the first `prefixLen` bits agree. -/
def cidrContainsIp (c : Cidr) (ip : IPAddr) : Bool :=
  match ip with
  | .v4 v =>
      c.isV4 && decide (c.prefixLen < 32) &&
        (v / 2 ^ (32 - c.prefixLen) == c.addr / 2 ^ (32 - c.prefixLen))
  | .v6 v =>
      !c.isV4 && decide (c.prefixLen < 128) &&
        (v / 2 ^ (128 - c.prefixLen) == c.addr / 2 ^ (128 - c.prefixLen))

/-! ## Network tables (VlanTable, SubnetTable, IPRangeTable) -/

/-- A row of `VlanTable` (the columns this slice reads). -/
structure Vlan where
  id : Nat
  dhcp_on : Bool
deriving DecidableEq, Repr

/-- A row of `SubnetTable` (the columns this slice reads). -/
structure Subnet where
  id : Nat
  vlan_id : Nat
  cidr : Cidr
deriving DecidableEq, Repr

/-- IP range types (`IPRangeTable.c.type`). -/
inductive IPRangeType where
  | dynamic : IPRangeType
  | reserved : IPRangeType
deriving DecidableEq, Repr

/-- A row of `IPRangeTable` (the columns this slice reads). -/
structure IPRange where
  id : Nat
  subnet_id : Nat
  type : IPRangeType
deriving DecidableEq, Repr

/-- The database state the subnets repository queries range over. -/
structure NetDB where
  vlans : List Vlan
  subnets : List Subnet
  ipranges : List IPRange
deriving Repr

/-! ## SubnetsRepository.find_best_subnet_for_ip -/

/-- A row of the joined select in `find_best_subnet_for_ip`: the subnet
columns plus `masklen(cidr)` labelled `prefixlen` and `VlanTable.c.dhcp_on`. -/
structure BestRow where
  subnet : Subnet
  prefixlen : Nat
  dhcp_on : Bool
deriving DecidableEq, Repr

/-- `SELECT subnet.*, masklen(cidr), vlan.dhcp_on FROM subnet JOIN vlan
ON vlan.id = subnet.vlan_id`. -/
def joinSubnetVlan (db : NetDB) : List BestRow :=
  db.subnets.flatMap fun s =>
    (db.vlans.filter fun v => v.id == s.vlan_id).map
      fun v => ⟨s, s.cidr.prefixLen, v.dhcp_on⟩

/-- The sort key comparison of `ORDER BY dhcp_on DESC, prefixlen DESC`:
`rowKeyLe a b` holds when `a`'s key is at most `b`'s key in the
lexicographic (dhcp_on, prefixlen) order. -/
def rowKeyLe (a b : BestRow) : Bool :=
  (!a.dhcp_on && b.dhcp_on) ||
    (a.dhcp_on == b.dhcp_on && decide (a.prefixlen ≤ b.prefixlen))

/-- Insert a row into a descending-ordered list, before the first row
whose key is at most its own (so equal keys keep first-come order). -/
def insertDesc (x : BestRow) : List BestRow → List BestRow
  | [] => [x]
  | y :: ys => if rowKeyLe y x then x :: y :: ys else y :: insertDesc x ys

/-- `ORDER BY dhcp_on DESC, prefixlen DESC` as a stable descending
insertion sort over the joined rows. -/
def orderByDesc : List BestRow → List BestRow
  | [] => []
  | x :: xs => insertDesc x (orderByDesc xs)

/-- The address `find_best_subnet_for_ip` actually queries with: the
input, with an IPv4-mapped IPv6 address mapped down to IPv4. -/
def mappedDownIp (ip : IPAddr) : IPAddr :=
  if ip.is_ipv4_mapped then ip.ipv4 else ip

/-- The candidate rows of `find_best_subnet_for_ip`: joined
subnet/vlan rows whose cidr contains the (mapped-down) address. -/
def bestCandidates (db : NetDB) (ip : IPAddr) : List BestRow :=
  (joinSubnetVlan db).filter fun r => cidrContainsIp r.subnet.cidr (mappedDownIp ip)

/-- `SubnetsRepository.find_best_subnet_for_ip`: map an IPv4-mapped IPv6
address down to IPv4, select the joined rows whose cidr contains the
address, order by (dhcp_on desc, prefixlen desc) and return the first
row's subnet columns, or none when no row matches. -/
def find_best_subnet_for_ip (db : NetDB) (ip : IPAddr) : Option Subnet :=
  (orderByDesc (bestCandidates db ip)).head?.map (·.subnet)

/-- The first maximal row of a list under the sort key: the row
`ORDER BY ... DESC LIMIT 1` produces. -/
def firstMax : List BestRow → Option BestRow
  | [] => none
  | x :: xs =>
      match firstMax xs with
      | none => some x
      | some m => if rowKeyLe m x then some x else some m

/-- A two-subnet database: `10.0.0.0/24` (id 1) on a DHCP-off VLAN and
`10.0.0.0/28` (id 2) on a DHCP-on VLAN; `167772160 = 10.0.0.0`. -/
def exNetDB : NetDB :=
  { vlans := [⟨1, false⟩, ⟨2, true⟩],
    subnets := [⟨1, 1, ⟨true, 167772160, 24⟩⟩, ⟨2, 2, ⟨true, 167772160, 28⟩⟩],
    ipranges := [] }

/-- The `10.0.0.0/28` subnet of `exNetDB`, whose VLAN has DHCP on. -/
def exSubnetB : Subnet := ⟨2, 2, ⟨true, 167772160, 28⟩⟩

/-! ## SubnetsRepository.delete and its pre-delete check -/

/-- Errors surfaced by the embedded subnets repository. -/
inductive RepoError where
  | preconditionFailed : RepoError
  | multipleResultsFound : RepoError
deriving DecidableEq, Repr

/-- The EXISTS subquery built by `_pre_delete_checks`. Its FROM clause is
the single three-table join `subnet JOIN vlan JOIN iprange`, which is not
a FROM element of the enclosing statement, so sqlalchemy applies no
correlation (auto-correlation also requires more than one FROM element):
the EXISTS asks globally whether any subnet sits on a DHCP-enabled VLAN
and owns a dynamic IP range. -/
def anyDynamicRangeOnDhcpVlan (db : NetDB) : Bool :=
  db.subnets.any fun s =>
    (db.vlans.any fun v => v.id == s.vlan_id && v.dhcp_on) &&
      (db.ipranges.any fun r =>
        r.subnet_id == s.id && r.type == IPRangeType.dynamic)

/-- The per-subnet condition the claim describes (for comparison with
`anyDynamicRangeOnDhcpVlan`): this subnet itself lies on a DHCP-enabled
VLAN and owns a dynamic IP range. -/
def subnetOwnConflict (db : NetDB) (s : Subnet) : Bool :=
  (db.vlans.any fun v => v.id == s.vlan_id && v.dhcp_on) &&
    (db.ipranges.any fun r =>
      r.subnet_id == s.id && r.type == IPRangeType.dynamic)

/-- `SubnetsRepository._pre_delete_checks(query)`: select the subnets the
delete query matches, filtered by the (global) EXISTS condition;
`.one_or_none()` raises on two or more rows, and a returned row raises
the PRECONDITION_FAILED ValidationException. -/
def pre_delete_checks (db : NetDB) (query : Subnet → Bool) :
    Except RepoError Unit :=
  match db.subnets.filter fun s => query s && anyDynamicRangeOnDhcpVlan db with
  | [] => .ok ()
  | [_] => .error .preconditionFailed
  | _ => .error .multipleResultsFound

/-- Modelled from the spec: `BaseRepository.delete_one` (the base
repository module is outside this slice) deletes the rows the query
matches and returns the first matched row, or none when nothing
matches. -/
def repoDeleteOneSubnet (db : NetDB) (query : Subnet → Bool) :
    NetDB × Option Subnet :=
  ({ db with subnets := db.subnets.filter fun s => !query s },
    (db.subnets.filter query).head?)

/-- `SubnetsRepository.delete_one`: run `_pre_delete_checks`, then the
base delete. -/
def subnetsDeleteOne (db : NetDB) (query : Subnet → Bool) :
    Except RepoError (NetDB × Option Subnet) :=
  match pre_delete_checks db query with
  | .error e => .error e
  | .ok () => .ok (repoDeleteOneSubnet db query)

/-- `SubnetsRepository.delete_by_id`: delete with the `id = ...` clause. -/
def subnetsDeleteById (db : NetDB) (id : Nat) :
    Except RepoError (NetDB × Option Subnet) :=
  subnetsDeleteOne db fun s => s.id == id

/-- A database where subnet 1 (VLAN 1, DHCP off) has no IP range at all,
while the unrelated subnet 2 (VLAN 2, DHCP on) owns a dynamic range. -/
def exDeleteDB : NetDB :=
  { vlans := [⟨1, false⟩, ⟨2, true⟩],
    subnets := [⟨1, 1, ⟨true, 167772160, 24⟩⟩, ⟨2, 2, ⟨true, 3232235520, 24⟩⟩],
    ipranges := [⟨7, 2, IPRangeType.dynamic⟩] }

/-! ## StaticIPAddress DHCP hooks and the workflow dispatch adapter -/

/-- `maascommon.enums.ipaddress.IpAddressType` (the values the hooks
distinguish). -/
inductive IpAddressType where
  | auto : IpAddressType
  | sticky : IpAddressType
  | user_reserved : IpAddressType
  | dhcp : IpAddressType
  | discovered : IpAddressType
deriving DecidableEq, Repr

/-- A StaticIPAddress row (the fields the hooks read). -/
structure StaticIPAddress where
  id : Nat
  alloc_type : IpAddressType
  subnet_id : Nat
deriving DecidableEq, Repr

/-- Modelled from the spec: `ConfigureDHCPParam`
(`maascommon.workflows.dhcp` is outside this slice) carries the affected
ip-range ids, static-ip ids and subnet ids. -/
structure ConfigureDHCPParam where
  ip_range_ids : List Nat := []
  static_ip_addr_ids : List Nat := []
  subnet_ids : List Nat := []
deriving DecidableEq, Repr

/-- Modelled from the spec: `merge_configure_dhcp_param` combines two
parameter sets into one by uniting the affected id lists field-wise. -/
def merge_configure_dhcp_param (p q : ConfigureDHCPParam) :
    ConfigureDHCPParam :=
  { ip_range_ids := p.ip_range_ids ++ q.ip_range_ids,
    static_ip_addr_ids := p.static_ip_addr_ids ++ q.static_ip_addr_ids,
    subnet_ids := p.subnet_ids ++ q.subnet_ids }

/-- `maascommon.workflows.dhcp.CONFIGURE_DHCP_WORKFLOW_NAME`. -/
def CONFIGURE_DHCP_WORKFLOW_NAME : String := "configure-dhcp"

/-- Modelled from the spec: the TemporalService's pending workflow calls
for the current unit of work, keyed by workflow name; each pending entry
becomes exactly one outgoing call at the end of the unit of work. -/
abbrev TemporalState := List (String × ConfigureDHCPParam)

/-- Modelled from the spec:
`TemporalService.register_or_update_workflow_call(name, param,
parameter_merge_func, wait=False)` enqueues `param` when no call for
`name` is pending, and otherwise replaces the pending parameter with
`merge(existing, new)` instead of enqueueing a second call. -/
def register_or_update_workflow_call (name : String)
    (param : ConfigureDHCPParam)
    (merge : ConfigureDHCPParam → ConfigureDHCPParam → ConfigureDHCPParam)
    (st : TemporalState) : TemporalState :=
  match st.lookup name with
  | none => st ++ [(name, param)]
  | some old => st.map fun e => if e.1 == name then (e.1, merge old param) else e

/-- The register calls `StaticIPAddressService.post_create_hook` makes:
one ConfigureDHCP call carrying the created row's id when the address is
not DISCOVERED, none otherwise. -/
def staticip_post_create_calls (resource : StaticIPAddress) :
    List (String × ConfigureDHCPParam) :=
  if resource.alloc_type ≠ IpAddressType.discovered then
    [(CONFIGURE_DHCP_WORKFLOW_NAME, { static_ip_addr_ids := [resource.id] })]
  else []

/-- The register calls `StaticIPAddressService.post_update_hook` makes:
one ConfigureDHCP call carrying the updated row's id when the updated
address is not DISCOVERED, none otherwise. -/
def staticip_post_update_calls (old_resource updated_resource : StaticIPAddress) :
    List (String × ConfigureDHCPParam) :=
  if updated_resource.alloc_type ≠ IpAddressType.discovered then
    [(CONFIGURE_DHCP_WORKFLOW_NAME,
      { static_ip_addr_ids := [updated_resource.id] })]
  else []

/-- The register calls `StaticIPAddressService.create_or_update` makes
after the repository upsert returns `ip`. -/
def staticip_create_or_update_calls (ip : StaticIPAddress) :
    List (String × ConfigureDHCPParam) :=
  if ip.alloc_type ≠ IpAddressType.discovered then
    [(CONFIGURE_DHCP_WORKFLOW_NAME, { static_ip_addr_ids := [ip.id] })]
  else []

/-- The register calls `StaticIPAddressService.post_delete_hook` makes:
one ConfigureDHCP call carrying the parent subnet id (the source comment
reads: use parent id on delete) when the deleted address is not
DISCOVERED, none otherwise. -/
def staticip_post_delete_calls (resource : StaticIPAddress) :
    List (String × ConfigureDHCPParam) :=
  if resource.alloc_type ≠ IpAddressType.discovered then
    [(CONFIGURE_DHCP_WORKFLOW_NAME, { subnet_ids := [resource.subnet_id] })]
  else []

/-- Apply a sequence of register calls (all with
`merge_configure_dhcp_param`, as every DHCP hook passes it) to the
pending-call state of a unit of work. -/
def applyRegistrations (st : TemporalState)
    (calls : List (String × ConfigureDHCPParam)) : TemporalState :=
  calls.foldl
    (fun s c =>
      register_or_update_workflow_call c.1 c.2 merge_configure_dhcp_param s)
    st

/-! ## BaseService: etag checks, generic update and delete -/

/-- Modelled from the spec: a MaasBaseModel row (`models/base.py` is
outside this slice): an id plus a content field the etag is derived
from. -/
structure Resource where
  id : Nat
  content : Nat
deriving DecidableEq, Repr

/-- Modelled from the spec: the content-derived etag of a resource. -/
def Resource.etag (r : Resource) : String :=
  toString r.id ++ "-" ++ toString r.content

/-- Modelled from the spec: a partial set-these-fields update resource
(the builder layer is outside this slice): an absent field keeps the
stored value. -/
structure UpdateResource where
  content : Option Nat
deriving DecidableEq, Repr

/-- Apply a partial update to a stored row. -/
def applyUpdate (u : UpdateResource) (r : Resource) : Resource :=
  { r with content := u.content.getD r.content }

/-- Errors surfaced by the embedded service layer. -/
inductive SvcError where
  | notFound : SvcError
  | preconditionFailed : SvcError
deriving DecidableEq, Repr

/-- Observable side effects of a service mutation, in order. -/
inductive SvcEvent where
  | repoWrite (id : Nat) : SvcEvent
  | postUpdateHook (old_resource updated_resource : Resource) : SvcEvent
  | preDeleteHook (r : Resource) : SvcEvent
  | postDeleteHook (r : Resource) : SvcEvent
deriving DecidableEq, Repr

/-- Modelled from the spec: `BaseRepository.get_by_id` returns the row
with the given id, or none. -/
def repoGetById (db : List Resource) (id : Nat) : Option Resource :=
  db.find? fun x => x.id == id

/-- Modelled from the spec: `BaseRepository.get_one(query)` returns the
row the query matches, or none. -/
def repoGetOne (db : List Resource) (q : Resource → Bool) : Option Resource :=
  db.find? q

/-- Modelled from the spec: `BaseRepository.update_by_id` applies the
partial-field update to the matching row and returns the updated row
(not-found when no row matches). -/
def repoUpdateById (db : List Resource) (id : Nat) (u : UpdateResource) :
    Except SvcError (Resource × List Resource) :=
  match db.find? fun x => x.id == id with
  | none => .error .notFound
  | some r =>
      .ok (applyUpdate u r,
        db.map fun x => if x.id == id then applyUpdate u x else x)

/-- Modelled from the spec: `BaseRepository.delete_by_id` removes the
matching row and returns it, or returns none when nothing matches. -/
def repoDeleteById (db : List Resource) (id : Nat) :
    List Resource × Option Resource :=
  (db.filter fun x => !(x.id == id), db.find? fun x => x.id == id)

/-- `BaseService.etag_check`: raise a PreconditionFailedException when an
expected etag is supplied and differs from the resource's computed
etag. -/
def etag_check (model : Resource) (etag_if_match : Option String) :
    Except SvcError Unit :=
  match etag_if_match with
  | none => .ok ()
  | some e => if model.etag ≠ e then .error .preconditionFailed else .ok ()

/-- `BaseService._update_resource`: not-found when the fetched resource
is absent; else etag check, then the repository partial update, then the
`post_update_hook` with the (old, new) pair. The result carries the
emitted side effects in order, the final database and the outcome. -/
def update_resource (db : List Resource) (existing : Option Resource)
    (u : UpdateResource) (etag_if_match : Option String) :
    List SvcEvent × List Resource × Except SvcError Resource :=
  match existing with
  | none => ([], db, .error .notFound)
  | some r =>
      match etag_check r etag_if_match with
      | .error e => ([], db, .error e)
      | .ok () =>
          match repoUpdateById db r.id u with
          | .error e => ([], db, .error e)
          | .ok (updated, db2) =>
              ([.repoWrite r.id, .postUpdateHook r updated], db2, .ok updated)

/-- `BaseService.update_by_id`: fetch by id, then `_update_resource`. -/
def update_by_id (db : List Resource) (id : Nat) (u : UpdateResource)
    (etag_if_match : Option String) :
    List SvcEvent × List Resource × Except SvcError Resource :=
  update_resource db (repoGetById db id) u etag_if_match

/-- `BaseService.update_one`: fetch by query, then `_update_resource`. -/
def update_one (db : List Resource) (q : Resource → Bool) (u : UpdateResource)
    (etag_if_match : Option String) :
    List SvcEvent × List Resource × Except SvcError Resource :=
  update_resource db (repoGetOne db q) u etag_if_match

/-- `BaseService._delete_resource`: a missing resource returns none
without error; else etag check, the (base no-op) `pre_delete_hook`, the
repository delete, and `post_delete_hook` only when a row was actually
deleted. -/
def delete_resource (db : List Resource) (resource : Option Resource)
    (etag_if_match : Option String) :
    List SvcEvent × List Resource × Except SvcError (Option Resource) :=
  match resource with
  | none => ([], db, .ok none)
  | some r =>
      match etag_check r etag_if_match with
      | .error e => ([], db, .error e)
      | .ok () =>
          match repoDeleteById db r.id with
          | (db2, none) => ([.preDeleteHook r, .repoWrite r.id], db2, .ok none)
          | (db2, some d) =>
              ([.preDeleteHook r, .repoWrite r.id, .postDeleteHook d], db2,
                .ok (some d))

/-- `BaseService.delete_by_id`: fetch by id, then `_delete_resource`. -/
def delete_by_id (db : List Resource) (id : Nat)
    (etag_if_match : Option String) :
    List SvcEvent × List Resource × Except SvcError (Option Resource) :=
  delete_resource db (repoGetById db id) etag_if_match

/-- `BaseService.delete_one`: fetch by query, then `_delete_resource`. -/
def delete_one (db : List Resource) (q : Resource → Bool)
    (etag_if_match : Option String) :
    List SvcEvent × List Resource × Except SvcError (Option Resource) :=
  delete_resource db (repoGetOne db q) etag_if_match

/-! ## Service.from_cache_or_execute

The cache is `Option (Option α)`: the outer layer models `self.cache is
None` (service built without a cache), the inner layer the named cache
slot, which defaults to None. A call is modelled by the value the
wrapped method would produce if executed on that call (None models a
Python method returning None); the decorator ignores the call's
arguments, so they do not appear. -/

/-- One call through the `from_cache_or_execute(attr)` wrapper: with no
cache, execute; with an empty slot, execute, store the produced value in
the slot and return the slot's content; with a populated slot, return it
without executing. Yields (executed flag, returned value, new cache). -/
def from_cache_or_execute_step (cache : Option (Option α))
    (result : Option α) : Bool × Option α × Option (Option α) :=
  match cache with
  | none => (true, result, none)
  | some none => (true, result, some result)
  | some (some v) => (false, some v, some (some v))

/-- A sequence of calls through the wrapper, threading the cache. -/
def from_cache_or_execute_run (cache : Option (Option α)) :
    List (Option α) → List (Bool × Option α) × Option (Option α)
  | [] => ([], cache)
  | r :: rs =>
      match from_cache_or_execute_step cache r with
      | (ex, ret, c2) =>
          match from_cache_or_execute_run c2 rs with
          | (outs, cf) => ((ex, ret) :: outs, cf)

/-! ## VlansRepository.list: keyset pagination

`maasapiserver/v3/db/vlans.py` converts the incoming token with `int()`
and pages with `WHERE id <= token ORDER BY id DESC LIMIT size+1`,
popping the extra row as the next token. -/

/-- Accumulating decimal parser: the digits of Python `int(str)` (a
non-digit makes the whole conversion fail). -/
def parseDigitsAux : List Char → Nat → Option Nat
  | [], acc => some acc
  | c :: cs, acc =>
      if c.isDigit then parseDigitsAux cs (acc * 10 + (c.toNat - 48))
      else none

/-- Python `int(str)` on its core syntax: an optional sign followed by
one or more decimal digits (whitespace trimming and underscore grouping,
which Python also accepts, are not modelled). A string outside this
syntax raises ValueError. -/
def pyInt (s : String) : Option Int :=
  match s.data with
  | [] => none
  | c :: cs =>
      if c = '-' then
        if cs = [] then none
        else Option.map (fun m : Nat => -(m : Int)) (parseDigitsAux cs 0)
      else if c = '+' then
        if cs = [] then none
        else Option.map (fun m : Nat => (m : Int)) (parseDigitsAux cs 0)
      else Option.map (fun m : Nat => (m : Int)) (parseDigitsAux (c :: cs) 0)

/-- The decimal digit character for a value below ten. -/
def natDigitChar (d : Nat) : Char := Char.ofNat (48 + d)

/-- The decimal digits of a natural number, most significant first, with
explicit fuel (any fuel above the value itself is enough). -/
def natToDigitsAux : Nat → Nat → List Char
  | 0, _ => []
  | fuel + 1, n =>
      if n < 10 then [natDigitChar n]
      else natToDigitsAux fuel (n / 10) ++ [natDigitChar (n % 10)]

/-- The decimal digits of a natural number, most significant first:
Python `str(int)` for a non-negative value. -/
def natToDigits (n : Nat) : List Char := natToDigitsAux (n + 1) n

/-- Python `str` of a non-negative integer (the form in which a next
token — a primary key — travels back to the client and returns). -/
def pyStrNat (n : Nat) : String := ⟨natToDigits n⟩

/-- Errors surfaced by the embedded pagination code. -/
inductive PageError where
  | valueError : PageError
deriving DecidableEq, Repr

/-- The result shape of `VlansRepository.list`. -/
structure VlanListResult where
  items : List Vlan
  next_token : Option Nat
deriving DecidableEq, Repr

/-- Insert a VLAN row into a list ordered by descending id. -/
def insertVlanDesc (x : Vlan) : List Vlan → List Vlan
  | [] => [x]
  | y :: ys => if y.id ≤ x.id then x :: y :: ys else y :: insertVlanDesc x ys

/-- `ORDER BY id DESC` as an insertion sort. -/
def orderVlansDesc : List Vlan → List Vlan
  | [] => []
  | x :: xs => insertVlanDesc x (orderVlansDesc xs)

/-- The row sequence a `list` call pages over: all rows ordered by
descending id, restricted to `id <= token` when a token is present. -/
def pageSource (db : List Vlan) (token : Option Int) : List Vlan :=
  match token with
  | none => orderVlansDesc db
  | some t => (orderVlansDesc db).filter fun v => decide ((v.id : Int) ≤ t)

/-- One page: fetch `size + 1` rows from the source; when the extra row
exists (`len(result) > size`), pop it and return its id as the next
token, else the next token is absent. -/
def vlansPage (db : List Vlan) (token : Option Int) (size : Nat) :
    VlanListResult :=
  if size < ((pageSource db token).take (size + 1)).length then
    { items := ((pageSource db token).take (size + 1)).dropLast,
      next_token :=
        ((pageSource db token).take (size + 1)).getLast?.map Vlan.id }
  else
    { items := (pageSource db token).take (size + 1), next_token := none }

/-- `VlansRepository.list(token, size)`: apply `int()` to a present token
(raising ValueError on a non-numeric string), then page. -/
def vlans_list (db : List Vlan) (token : Option String) (size : Nat) :
    Except PageError VlanListResult :=
  match token with
  | none => .ok (vlansPage db none size)
  | some ts =>
      match pyInt ts with
      | none => .error .valueError
      | some t => .ok (vlansPage db (some t) size)

/-- Iterate `list` from `token=None`, following each returned next token
(serialized to its string form) until it is absent; the fuel bounds the
number of calls. -/
def paginateVlansAux (db : List Vlan) (size : Nat) :
    Nat → Option Nat → List (List Vlan)
  | 0, _ => []
  | fuel + 1, token =>
      match vlans_list db (token.map pyStrNat) size with
      | .error _ => []
      | .ok res =>
          res.items ::
            match res.next_token with
            | none => []
            | some t => paginateVlansAux db size fuel (some t)

/-- The full pagination sweep: first call with `token=None`, then follow
next tokens; `db.length + 1` calls always suffice. -/
def paginateVlans (db : List Vlan) (size : Nat) : List (List Vlan) :=
  paginateVlansAux db size (db.length + 1) none

/-! Basic order facts about the sort key. -/

theorem rowKeyLe_refl (a : BestRow) : rowKeyLe a a = true := by
  simp [rowKeyLe]

theorem rowKeyLe_total (a b : BestRow) :
    rowKeyLe a b = true ∨ rowKeyLe b a = true := by
  simp only [rowKeyLe, Bool.or_eq_true, Bool.and_eq_true, Bool.not_eq_true',
    beq_iff_eq, decide_eq_true_eq]
  cases ha : a.dhcp_on <;> cases hb : b.dhcp_on <;>
    simp_all [Nat.le_total a.prefixlen b.prefixlen]

theorem rowKeyLe_trans {a b c : BestRow} (hab : rowKeyLe a b = true)
    (hbc : rowKeyLe b c = true) : rowKeyLe a c = true := by
  simp only [rowKeyLe, Bool.or_eq_true, Bool.and_eq_true, Bool.not_eq_true',
    beq_iff_eq, decide_eq_true_eq] at *
  cases ha : a.dhcp_on <;> cases hb : b.dhcp_on <;> cases hc : c.dhcp_on <;>
    simp_all <;> omega

theorem head_insertDesc (x : BestRow) (l : List BestRow) :
    (insertDesc x l).head? =
      match l.head? with
      | none => some x
      | some y => if rowKeyLe y x then some x else some y := by
  cases l with
  | nil => rfl
  | cons y ys =>
      simp only [insertDesc, List.head?_cons]
      split <;> simp

theorem head_orderByDesc (l : List BestRow) :
    (orderByDesc l).head? = firstMax l := by
  induction l with
  | nil => rfl
  | cons x xs ih =>
      rw [orderByDesc, head_insertDesc, ih, firstMax]

theorem firstMax_spec : ∀ (l : List BestRow) (m : BestRow),
    firstMax l = some m →
    ∃ l₁ l₂, l = l₁ ++ m :: l₂ ∧ (∀ r ∈ l, rowKeyLe r m = true) ∧
      (∀ r ∈ l₁, rowKeyLe m r = false)
  | [], m, h => by simp [firstMax] at h
  | x :: xs, m, h => by
      rw [firstMax] at h
      cases hx : firstMax xs with
      | none =>
          simp only [hx] at h
          have hm : m = x := (Option.some.inj h).symm
          subst hm
          have hxs : xs = [] := by
            cases xs with
            | nil => rfl
            | cons y ys =>
                exfalso
                rw [firstMax] at hx
                cases hfy : firstMax ys <;> simp only [hfy] at hx
                · simp at hx
                · split at hx <;> simp at hx
          subst hxs
          refine ⟨[], [], rfl, ?_, by simp⟩
          intro r hr
          simp only [List.mem_singleton] at hr
          subst hr
          exact rowKeyLe_refl _
      | some m' =>
          simp only [hx] at h
          obtain ⟨l₁, l₂, hsplit, hmax, hbefore⟩ := firstMax_spec xs m' hx
          by_cases hle : rowKeyLe m' x = true
          · rw [if_pos hle] at h
            have hm : m = x := (Option.some.inj h).symm
            subst hm
            refine ⟨[], xs, rfl, ?_, by simp⟩
            intro r hr
            rcases List.mem_cons.mp hr with h | h
            · subst h; exact rowKeyLe_refl _
            · exact rowKeyLe_trans (hmax r h) hle
          · rw [if_neg hle] at h
            have hm : m = m' := (Option.some.inj h).symm
            subst hm
            refine ⟨x :: l₁, l₂, by rw [hsplit]; simp, ?_, ?_⟩
            · intro r hr
              rcases List.mem_cons.mp hr with h | h
              · subst h
                rcases rowKeyLe_total r m with ht | ht
                · exact ht
                · exact absurd ht hle
              · exact hmax r h
            · intro r hr
              rcases List.mem_cons.mp hr with h | h
              · subst h; simpa using hle
              · exact hbefore r h

theorem firstMax_eq_none_iff (l : List BestRow) :
    firstMax l = none ↔ l = [] := by
  cases l with
  | nil => simp [firstMax]
  | cons x xs =>
      simp only [firstMax]
      constructor
      · intro h
        exfalso
        cases hfx : firstMax xs <;> simp only [hfx] at h
        · exact Option.noConfusion h
        · split at h <;> exact Option.noConfusion h
      · intro h
        exact absurd h (List.cons_ne_nil x xs)

theorem rowKeyLe_dhcp {a b : BestRow} (h : rowKeyLe a b = true)
    (ha : a.dhcp_on = true) : b.dhcp_on = true := by
  simp only [rowKeyLe, Bool.or_eq_true, Bool.and_eq_true, Bool.not_eq_true',
    beq_iff_eq] at h
  cases hb : b.dhcp_on <;> simp_all

/-- Claim C1: `find_best_subnet_for_ip` first maps an IPv4-mapped IPv6
address down to its IPv4 form, then among all joined subnet rows whose
CIDR contains the resulting address (the postgres `cidr >> inet`
operator) returns the first row under the ordering (VLAN dhcp_on
descending, then prefix length descending): the returned subnet comes
from a candidate row that every candidate compares at most equal to and
that every earlier candidate compares strictly below, so a candidate on
a DHCP-enabled VLAN forces the winner to be on a DHCP-enabled VLAN
regardless of prefix length; and the result is none exactly when no
subnet's CIDR contains the address. -/
theorem find_best_subnet_for_ip_spec (db : NetDB) (ip : IPAddr) :
    (find_best_subnet_for_ip db ip = none ↔ bestCandidates db ip = []) ∧
    ∀ s, find_best_subnet_for_ip db ip = some s →
      ∃ row l₁ l₂, bestCandidates db ip = l₁ ++ row :: l₂ ∧
        row.subnet = s ∧
        (∀ r ∈ bestCandidates db ip, rowKeyLe r row = true) ∧
        (∀ r ∈ l₁, rowKeyLe row r = false) ∧
        (∀ r ∈ bestCandidates db ip, r.dhcp_on = true → row.dhcp_on = true) := by
  constructor
  · rw [find_best_subnet_for_ip, Option.map_eq_none', ← firstMax_eq_none_iff,
      ← head_orderByDesc]
  · intro s hs
    rw [find_best_subnet_for_ip, head_orderByDesc] at hs
    obtain ⟨row, hrow, hsub⟩ := Option.map_eq_some'.mp hs
    obtain ⟨l₁, l₂, hsplit, hmax, hbefore⟩ :=
      firstMax_spec (bestCandidates db ip) row hrow
    exact ⟨row, l₁, l₂, hsplit, hsub, hmax, hbefore,
      fun r hr hd => rowKeyLe_dhcp (hmax r hr) hd⟩

/-- Witness for claim C1: with subnets `10.0.0.0/24` (DHCP off) and
`10.0.0.0/28` (DHCP on) and ip `10.0.0.5` (= 167772165), the winner is
the DHCP-on `/28` subnet. -/
theorem find_best_subnet_for_ip_spec_witness :
    ∃ row l₁ l₂,
      bestCandidates exNetDB (IPAddr.v4 167772165) = l₁ ++ row :: l₂ ∧
      row.subnet = exSubnetB ∧
      (∀ r ∈ bestCandidates exNetDB (IPAddr.v4 167772165),
        rowKeyLe r row = true) ∧
      (∀ r ∈ l₁, rowKeyLe row r = false) ∧
      (∀ r ∈ bestCandidates exNetDB (IPAddr.v4 167772165),
        r.dhcp_on = true → row.dhcp_on = true) :=
  (find_best_subnet_for_ip_spec exNetDB (IPAddr.v4 167772165)).2
    exSubnetB (by decide)

/-- Claim C2 fails on the code: subnet 1 of `exDeleteDB` has no dynamic
range and its VLAN has DHCP off (`subnetOwnConflict` is false), yet
`delete_by_id 1` is rejected with the precondition failure, because the
EXISTS subquery of `_pre_delete_checks` is uncorrelated and sees the
unrelated subnet 2's dynamic range on its DHCP-enabled VLAN. -/
theorem subnets_delete_by_id_rejects_clean_subnet :
    subnetOwnConflict exDeleteDB ⟨1, 1, ⟨true, 167772160, 24⟩⟩ = false ∧
    subnetsDeleteById exDeleteDB 1 = .error .preconditionFailed := by
  exact ⟨rfl, rfl⟩

/-- Claim C3: two DHCP-reconfiguration registrations for the same
workflow name inside one unit of work (two non-DISCOVERED StaticIPAddress
creations) leave exactly one pending ConfigureDHCP call whose parameter
is `merge_configure_dhcp_param` of the two registered parameters — the
union of the affected static-ip ids — not two separate calls. -/
theorem two_auto_creates_merge_into_one_call (ip1 ip2 : StaticIPAddress)
    (h1 : ip1.alloc_type ≠ IpAddressType.discovered)
    (h2 : ip2.alloc_type ≠ IpAddressType.discovered) :
    applyRegistrations []
        (staticip_post_create_calls ip1 ++ staticip_post_create_calls ip2) =
      [(CONFIGURE_DHCP_WORKFLOW_NAME,
        merge_configure_dhcp_param { static_ip_addr_ids := [ip1.id] }
          { static_ip_addr_ids := [ip2.id] })] ∧
    merge_configure_dhcp_param { static_ip_addr_ids := [ip1.id] }
        { static_ip_addr_ids := [ip2.id] } =
      { static_ip_addr_ids := [ip1.id, ip2.id] } := by
  constructor
  · simp [staticip_post_create_calls, h1, h2, applyRegistrations,
      register_or_update_workflow_call, List.lookup]
  · rfl

/-- Witness for claim C3: creating static ips 10 and 11 (both AUTO)
pends one ConfigureDHCP call with both ids merged. -/
theorem two_auto_creates_merge_into_one_call_witness :
    applyRegistrations []
        (staticip_post_create_calls ⟨10, IpAddressType.auto, 5⟩ ++
          staticip_post_create_calls ⟨11, IpAddressType.auto, 5⟩) =
      [(CONFIGURE_DHCP_WORKFLOW_NAME,
        merge_configure_dhcp_param { static_ip_addr_ids := [10] }
          { static_ip_addr_ids := [11] })] ∧
    merge_configure_dhcp_param { static_ip_addr_ids := [10] }
        { static_ip_addr_ids := [11] } =
      { static_ip_addr_ids := [10, 11] } :=
  two_auto_creates_merge_into_one_call ⟨10, IpAddressType.auto, 5⟩
    ⟨11, IpAddressType.auto, 5⟩ (by decide) (by decide)

/-- Claim C4: each of create, update, create_or_update and delete of a
StaticIPAddress registers no workflow call when the (resulting) address
is DISCOVERED, and exactly one call — named ConfigureDHCP — for every
other allocation type. -/
theorem staticip_hooks_register_iff_not_discovered
    (old_resource resource : StaticIPAddress) :
    ((staticip_post_create_calls resource).length =
      if resource.alloc_type = IpAddressType.discovered then 0 else 1) ∧
    ((staticip_post_update_calls old_resource resource).length =
      if resource.alloc_type = IpAddressType.discovered then 0 else 1) ∧
    ((staticip_create_or_update_calls resource).length =
      if resource.alloc_type = IpAddressType.discovered then 0 else 1) ∧
    ((staticip_post_delete_calls resource).length =
      if resource.alloc_type = IpAddressType.discovered then 0 else 1) ∧
    (∀ c ∈ staticip_post_create_calls resource ++
        staticip_post_update_calls old_resource resource ++
        staticip_create_or_update_calls resource ++
        staticip_post_delete_calls resource,
      c.1 = CONFIGURE_DHCP_WORKFLOW_NAME) := by
  by_cases h : resource.alloc_type = IpAddressType.discovered <;>
    simp [staticip_post_create_calls, staticip_post_update_calls,
      staticip_create_or_update_calls, staticip_post_delete_calls, h]

/-- Witness for claim C4 at a DISCOVERED address (no calls) — the
theorem applied at a concrete input. -/
theorem staticip_hooks_register_iff_not_discovered_witness :
    ((staticip_post_create_calls ⟨3, IpAddressType.discovered, 9⟩).length =
      if (IpAddressType.discovered : IpAddressType) = IpAddressType.discovered
        then 0 else 1) ∧
    ((staticip_post_update_calls ⟨2, IpAddressType.auto, 9⟩
        ⟨3, IpAddressType.discovered, 9⟩).length =
      if (IpAddressType.discovered : IpAddressType) = IpAddressType.discovered
        then 0 else 1) ∧
    ((staticip_create_or_update_calls ⟨3, IpAddressType.discovered, 9⟩).length =
      if (IpAddressType.discovered : IpAddressType) = IpAddressType.discovered
        then 0 else 1) ∧
    ((staticip_post_delete_calls ⟨3, IpAddressType.discovered, 9⟩).length =
      if (IpAddressType.discovered : IpAddressType) = IpAddressType.discovered
        then 0 else 1) ∧
    (∀ c ∈ staticip_post_create_calls ⟨3, IpAddressType.discovered, 9⟩ ++
        staticip_post_update_calls ⟨2, IpAddressType.auto, 9⟩
          ⟨3, IpAddressType.discovered, 9⟩ ++
        staticip_create_or_update_calls ⟨3, IpAddressType.discovered, 9⟩ ++
        staticip_post_delete_calls ⟨3, IpAddressType.discovered, 9⟩,
      c.1 = CONFIGURE_DHCP_WORKFLOW_NAME) :=
  staticip_hooks_register_iff_not_discovered ⟨2, IpAddressType.auto, 9⟩
    ⟨3, IpAddressType.discovered, 9⟩

/-- Claim C5: deleting a non-DISCOVERED StaticIPAddress registers a
ConfigureDHCP call whose parameter carries the parent subnet's id, and
whose static-ip id list (and ip-range id list) is empty — never the
deleted row's own id. -/
theorem staticip_delete_registers_parent_subnet_id
    (resource : StaticIPAddress)
    (h : resource.alloc_type ≠ IpAddressType.discovered) :
    staticip_post_delete_calls resource =
      [(CONFIGURE_DHCP_WORKFLOW_NAME,
        { subnet_ids := [resource.subnet_id] })] ∧
    ∀ c ∈ staticip_post_delete_calls resource,
      c.2.static_ip_addr_ids = [] ∧ c.2.ip_range_ids = [] ∧
        c.2.subnet_ids = [resource.subnet_id] := by
  constructor
  · simp [staticip_post_delete_calls, h]
  · intro c hc
    simp [staticip_post_delete_calls, h] at hc
    subst hc
    exact ⟨rfl, rfl, rfl⟩

/-- Witness for claim C5 at static ip 10 (AUTO) on subnet 5. -/
theorem staticip_delete_registers_parent_subnet_id_witness :
    staticip_post_delete_calls ⟨10, IpAddressType.auto, 5⟩ =
      [(CONFIGURE_DHCP_WORKFLOW_NAME, { subnet_ids := [5] })] ∧
    ∀ c ∈ staticip_post_delete_calls ⟨10, IpAddressType.auto, 5⟩,
      c.2.static_ip_addr_ids = [] ∧ c.2.ip_range_ids = [] ∧
        c.2.subnet_ids = [5] :=
  staticip_delete_registers_parent_subnet_id ⟨10, IpAddressType.auto, 5⟩
    (by decide)

/-! Service-layer helper lemmas. -/

theorem repoGetById_id {db : List Resource} {id : Nat} {r : Resource}
    (h : repoGetById db id = some r) : r.id = id := by
  unfold repoGetById at h
  have := List.find?_some h
  simpa using this

theorem etag_check_pass {r : Resource} {et : Option String}
    (h : et = none ∨ et = some r.etag) : etag_check r et = .ok () := by
  rcases h with h | h <;> subst h <;> simp [etag_check]

theorem etag_check_mismatch {r : Resource} {e : String} (h : e ≠ r.etag) :
    etag_check r (some e) = .error .preconditionFailed := by
  simp [etag_check, Ne.symm h]

theorem find?_by_id_isSome {db : List Resource} {r : Resource} (hr : r ∈ db) :
    ∃ z, db.find? (fun x => x.id == r.id) = some z := by
  cases h : db.find? fun x => x.id == r.id with
  | some z => exact ⟨z, rfl⟩
  | none =>
      exfalso
      have := List.find?_eq_none.mp h r hr
      simp at this

theorem update_resource_etag_mismatch {r : Resource} {e : String}
    (db : List Resource) (u : UpdateResource) (h : e ≠ r.etag) :
    update_resource db (some r) u (some e) =
      ([], db, .error .preconditionFailed) := by
  simp [update_resource, etag_check_mismatch h]

theorem delete_resource_etag_mismatch {r : Resource} {e : String}
    (db : List Resource) (h : e ≠ r.etag) :
    delete_resource db (some r) (some e) =
      ([], db, .error .preconditionFailed) := by
  simp [delete_resource, etag_check_mismatch h]

theorem update_resource_proceeds {r : Resource} {et : Option String}
    (db : List Resource) (u : UpdateResource) (hr : r ∈ db)
    (het : etag_check r et = .ok ()) :
    ∃ x, (update_resource db (some r) u et).2.2 = .ok x := by
  obtain ⟨z, hz⟩ := find?_by_id_isSome hr
  simp [update_resource, het, repoUpdateById, hz]

theorem delete_resource_proceeds {r : Resource} {et : Option String}
    (db : List Resource) (het : etag_check r et = .ok ()) :
    ∃ x, (delete_resource db (some r) et).2.2 = .ok x := by
  rcases h : repoDeleteById db r.id with ⟨db2, o⟩
  cases o <;> simp [delete_resource, het, h]

/-- Claim C6: for a mutation on an existing resource, a supplied expected
etag different from the computed etag makes update_by_id, update_one,
delete_by_id and delete_one fail with a precondition-failed error with no
repository write and no hook (empty event list, database unchanged);
when the expected etag is absent or equal to the current etag, the check
passes and each mutation proceeds to an ok outcome, for every payload. -/
theorem etag_guards_mutations (db : List Resource) (id : Nat)
    (q : Resource → Bool) (u : UpdateResource) (r r' : Resource)
    (e : String) (et et' : Option String)
    (hid : repoGetById db id = some r) (hq : repoGetOne db q = some r')
    (he : e ≠ r.etag) (he' : e ≠ r'.etag)
    (het : et = none ∨ et = some r.etag)
    (het' : et' = none ∨ et' = some r'.etag) :
    update_by_id db id u (some e) = ([], db, .error .preconditionFailed) ∧
    delete_by_id db id (some e) = ([], db, .error .preconditionFailed) ∧
    update_one db q u (some e) = ([], db, .error .preconditionFailed) ∧
    delete_one db q (some e) = ([], db, .error .preconditionFailed) ∧
    (∃ x, (update_by_id db id u et).2.2 = .ok x) ∧
    (∃ x, (delete_by_id db id et).2.2 = .ok x) ∧
    (∃ x, (update_one db q u et').2.2 = .ok x) ∧
    (∃ x, (delete_one db q et').2.2 = .ok x) := by
  have hmem : r ∈ db := by
    unfold repoGetById at hid
    exact List.mem_of_find?_eq_some hid
  have hmem' : r' ∈ db := by
    unfold repoGetOne at hq
    exact List.mem_of_find?_eq_some hq
  refine ⟨?_, ?_, ?_, ?_, ?_, ?_, ?_, ?_⟩
  · rw [update_by_id, hid]; exact update_resource_etag_mismatch db u he
  · rw [delete_by_id, hid]; exact delete_resource_etag_mismatch db he
  · rw [update_one, hq]; exact update_resource_etag_mismatch db u he'
  · rw [delete_one, hq]; exact delete_resource_etag_mismatch db he'
  · rw [update_by_id, hid]
    exact update_resource_proceeds db u hmem (etag_check_pass het)
  · rw [delete_by_id, hid]
    exact delete_resource_proceeds db (etag_check_pass het)
  · rw [update_one, hq]
    exact update_resource_proceeds db u hmem' (etag_check_pass het')
  · rw [delete_one, hq]
    exact delete_resource_proceeds db (etag_check_pass het')

/-- Witness for claim C6 on the database with rows (1,42) and (2,7): the
stale etag string is rejected on all four paths, and absent or matching
etags let all four paths proceed. -/
theorem etag_guards_mutations_witness :
    update_by_id [⟨1, 42⟩, ⟨2, 7⟩] 1 ⟨some 9⟩ (some "stale") =
      ([], [⟨1, 42⟩, ⟨2, 7⟩], .error .preconditionFailed) ∧
    delete_by_id [⟨1, 42⟩, ⟨2, 7⟩] 1 (some "stale") =
      ([], [⟨1, 42⟩, ⟨2, 7⟩], .error .preconditionFailed) ∧
    update_one [⟨1, 42⟩, ⟨2, 7⟩] (fun x => x.id == 2) ⟨some 9⟩ (some "stale") =
      ([], [⟨1, 42⟩, ⟨2, 7⟩], .error .preconditionFailed) ∧
    delete_one [⟨1, 42⟩, ⟨2, 7⟩] (fun x => x.id == 2) (some "stale") =
      ([], [⟨1, 42⟩, ⟨2, 7⟩], .error .preconditionFailed) ∧
    (∃ x, (update_by_id [⟨1, 42⟩, ⟨2, 7⟩] 1 ⟨some 9⟩ (some "1-42")).2.2 =
      .ok x) ∧
    (∃ x, (delete_by_id [⟨1, 42⟩, ⟨2, 7⟩] 1 (some "1-42")).2.2 = .ok x) ∧
    (∃ x, (update_one [⟨1, 42⟩, ⟨2, 7⟩] (fun x => x.id == 2) ⟨some 9⟩
      none).2.2 = .ok x) ∧
    (∃ x, (delete_one [⟨1, 42⟩, ⟨2, 7⟩] (fun x => x.id == 2) none).2.2 =
      .ok x) :=
  etag_guards_mutations [⟨1, 42⟩, ⟨2, 7⟩] 1 (fun x => x.id == 2) ⟨some 9⟩
    ⟨1, 42⟩ ⟨2, 7⟩ "stale" (some "1-42") none (by decide) (by decide)
    (by decide) (by decide) (Or.inr (by decide)) (Or.inl rfl)

/-- Counterexample to claim C8 as stated: deleting by an id that matches
no stored resource returns ok-none — a silent no-op — rather than
surfacing a not-found error as the claim asserts for delete paths. -/
theorem delete_missing_is_silent_noop :
    delete_by_id ([] : List Resource) 1 none = ([], [], .ok none) := rfl

/-- Claim C8 as amended: update_by_id and update_one on a missing
resource fail with not-found before any write; delete_by_id and
delete_one on a missing resource return none as a silent no-op (not an
error); on an existing resource, update applies the etag check, delegates
the partial-field update to the repository, and invokes post_update with
the (old, new) pair. -/
theorem update_not_found_delete_noop (db : List Resource) (id id2 : Nat)
    (q : Resource → Bool) (u : UpdateResource) (et et2 : Option String)
    (r : Resource)
    (hid : repoGetById db id = none) (hq : repoGetOne db q = none)
    (hid2 : repoGetById db id2 = some r)
    (het2 : etag_check r et2 = .ok ()) :
    update_by_id db id u et = ([], db, .error .notFound) ∧
    update_one db q u et = ([], db, .error .notFound) ∧
    delete_by_id db id et = ([], db, .ok none) ∧
    delete_one db q et = ([], db, .ok none) ∧
    update_by_id db id2 u et2 =
      ([.repoWrite r.id, .postUpdateHook r (applyUpdate u r)],
        db.map (fun x => if x.id == r.id then applyUpdate u x else x),
        .ok (applyUpdate u r)) := by
  have heq : r.id = id2 := repoGetById_id hid2
  subst heq
  refine ⟨?_, ?_, ?_, ?_, ?_⟩
  · rw [update_by_id, hid]; rfl
  · rw [update_one, hq]; rfl
  · rw [delete_by_id, hid]; rfl
  · rw [delete_one, hq]; rfl
  · rw [update_by_id, hid2]
    unfold repoGetById at hid2
    simp [update_resource, het2, repoUpdateById, hid2]

/-- Witness for the amended claim C8 on the database with row (1,42):
updates addressed at absent id 2 (or an unsatisfied query) raise
not-found, deletes addressed at them return none, and the update of the
existing row 1 writes the partial update and fires post_update with the
(old, new) pair. -/
theorem update_not_found_delete_noop_witness :
    update_by_id [⟨1, 42⟩] 2 ⟨some 7⟩ none = ([], [⟨1, 42⟩], .error .notFound) ∧
    update_one [⟨1, 42⟩] (fun x => x.content == 99) ⟨some 7⟩ none =
      ([], [⟨1, 42⟩], .error .notFound) ∧
    delete_by_id [⟨1, 42⟩] 2 none = ([], [⟨1, 42⟩], .ok none) ∧
    delete_one [⟨1, 42⟩] (fun x => x.content == 99) none =
      ([], [⟨1, 42⟩], .ok none) ∧
    update_by_id [⟨1, 42⟩] 1 ⟨some 7⟩ none =
      ([.repoWrite (Resource.mk 1 42).id,
        .postUpdateHook ⟨1, 42⟩ (applyUpdate ⟨some 7⟩ ⟨1, 42⟩)],
        [⟨1, 42⟩].map
          (fun x => if x.id == (Resource.mk 1 42).id then applyUpdate ⟨some 7⟩ x
            else x),
        .ok (applyUpdate ⟨some 7⟩ ⟨1, 42⟩)) :=
  update_not_found_delete_noop [⟨1, 42⟩] 2 1 (fun x => x.content == 99)
    ⟨some 7⟩ none none ⟨1, 42⟩ (by decide) (by decide) (by decide) rfl

/-! Cache-wrapper lemmas. -/

theorem run_no_cache (rs : List (Option α)) :
    from_cache_or_execute_run none rs = (rs.map fun r => (true, r), none) := by
  induction rs with
  | nil => rfl
  | cons r rs ih =>
      simp [from_cache_or_execute_run, from_cache_or_execute_step, ih]

theorem run_populated_slot (v : α) (rs : List (Option α)) :
    from_cache_or_execute_run (some (some v)) rs =
      (rs.map fun _ => (false, some v), some (some v)) := by
  induction rs with
  | nil => rfl
  | cons r rs ih =>
      simp [from_cache_or_execute_run, from_cache_or_execute_step, ih]

theorem run_empty_slot (rs : List (Option α)) :
    (∀ j, (from_cache_or_execute_run (some none) rs).1.get? j =
      (rs.get? j).map fun rj =>
        match (rs.take j).findSome? id with
        | none => (true, rj)
        | some w => (false, some w)) ∧
    (from_cache_or_execute_run (some none) rs).2 =
      some (rs.findSome? id) := by
  induction rs with
  | nil =>
      refine ⟨fun j => ?_, rfl⟩
      cases j <;> rfl
  | cons r rs ih =>
      cases r with
      | none =>
          refine ⟨fun j => ?_, ?_⟩
          · cases j with
            | zero => rfl
            | succ j =>
                have h := ih.1 j
                simp only [from_cache_or_execute_run,
                  from_cache_or_execute_step] at h ⊢
                simpa using h
          · simp only [from_cache_or_execute_run, from_cache_or_execute_step]
            simpa using ih.2
      | some w =>
          refine ⟨fun j => ?_, ?_⟩
          · cases j with
            | zero => rfl
            | succ j =>
                simp only [from_cache_or_execute_run,
                  from_cache_or_execute_step, run_populated_slot,
                  List.get?_eq_getElem?, List.getElem?_cons_succ,
                  List.take_succ_cons, List.findSome?_cons, id]
                rcases Nat.lt_or_ge j rs.length with h | h
                · simp [List.getElem?_replicate, h,
                    List.getElem?_eq_getElem h]
                · simp [List.getElem?_replicate, Nat.not_lt.mpr h,
                    List.getElem?_eq_none h]
          · simp [from_cache_or_execute_run, from_cache_or_execute_step,
              run_populated_slot, List.findSome?]

/-! Decimal parse/print round-trip lemmas. -/

theorem parseDigitsAux_append (l1 l2 : List Char) (acc : Nat) :
    parseDigitsAux (l1 ++ l2) acc =
      (parseDigitsAux l1 acc).bind fun a => parseDigitsAux l2 a := by
  induction l1 generalizing acc with
  | nil => rfl
  | cons c cs ih =>
      simp only [List.cons_append, parseDigitsAux]
      split
      · exact ih _
      · rfl

theorem natDigitChar_spec {d : Nat} (h : d < 10) :
    (natDigitChar d).isDigit = true ∧ (natDigitChar d).toNat - 48 = d ∧
      natDigitChar d ≠ '-' ∧ natDigitChar d ≠ '+' := by
  interval_cases d <;>
    exact ⟨by decide, by decide, by decide, by decide⟩

theorem parseDigitsAux_natToDigitsAux (n : Nat) : ∀ fuel, n < fuel → ∀ acc,
    parseDigitsAux (natToDigitsAux fuel n) acc =
      some (acc * 10 ^ (natToDigitsAux fuel n).length + n) := by
  induction n using Nat.strong_induction_on with
  | _ n ih =>
      intro fuel hfuel acc
      match fuel, hfuel with
      | fuel + 1, hfuel =>
        rw [natToDigitsAux]
        split
        · next h =>
            obtain ⟨hd, hv, _, _⟩ := natDigitChar_spec h
            simp [parseDigitsAux, hd, hv]
        · next h =>
            have hlt : n / 10 < n := Nat.div_lt_self (by omega) (by omega)
            have hfl : n / 10 < fuel := by omega
            have h9 : n % 10 < 10 := Nat.mod_lt _ (by omega)
            obtain ⟨hdig, hv, _, _⟩ := natDigitChar_spec h9
            have hone : ∀ a : Nat, parseDigitsAux [natDigitChar (n % 10)] a =
                some (a * 10 + n % 10) := by
              intro a
              rw [parseDigitsAux, if_pos hdig, parseDigitsAux, hv]
            rw [parseDigitsAux_append, ih (n / 10) hlt fuel hfl acc,
              Option.some_bind, hone, List.length_append,
              List.length_singleton, pow_succ, ← mul_assoc]
            generalize acc * 10 ^ (natToDigitsAux fuel (n / 10)).length = m
            exact congrArg some (by omega)

theorem parseDigitsAux_natToDigits (n : Nat) : ∀ acc,
    parseDigitsAux (natToDigits n) acc =
      some (acc * 10 ^ (natToDigits n).length + n) := by
  intro acc
  rw [natToDigits]
  exact parseDigitsAux_natToDigitsAux n (n + 1) (by omega) acc

theorem natToDigitsAux_head (n : Nat) : ∀ fuel, n < fuel →
    ∃ d cs, natToDigitsAux fuel n = natDigitChar d :: cs ∧ d < 10 := by
  induction n using Nat.strong_induction_on with
  | _ n ih =>
      intro fuel hfuel
      match fuel, hfuel with
      | fuel + 1, hfuel =>
        rw [natToDigitsAux]
        split
        · next h => exact ⟨n, [], rfl, h⟩
        · next h =>
            have hlt : n / 10 < n := Nat.div_lt_self (by omega) (by omega)
            have hfl : n / 10 < fuel := by omega
            obtain ⟨d, cs, hds, hd⟩ := ih (n / 10) hlt fuel hfl
            exact ⟨d, cs ++ [natDigitChar (n % 10)], by rw [hds]; rfl, hd⟩

theorem natToDigits_head (n : Nat) :
    ∃ d cs, natToDigits n = natDigitChar d :: cs ∧ d < 10 := by
  rw [natToDigits]
  exact natToDigitsAux_head n (n + 1) (by omega)

theorem pyInt_cons (c : Char) (cs : List Char) :
    pyInt ⟨c :: cs⟩ =
      (if c = '-' then
        if cs = [] then none
        else Option.map (fun m : Nat => -(m : Int)) (parseDigitsAux cs 0)
      else if c = '+' then
        if cs = [] then none
        else Option.map (fun m : Nat => (m : Int)) (parseDigitsAux cs 0)
      else Option.map (fun m : Nat => (m : Int)) (parseDigitsAux (c :: cs) 0)) :=
  rfl

theorem pyInt_pyStrNat (n : Nat) : pyInt (pyStrNat n) = some (n : Int) := by
  obtain ⟨d, cs, hds, hd⟩ := natToDigits_head n
  obtain ⟨_, _, hne1, hne2⟩ := natDigitChar_spec hd
  have hstr : pyStrNat n = ⟨natDigitChar d :: cs⟩ := by
    rw [pyStrNat, hds]
  rw [hstr, pyInt_cons, if_neg hne1, if_neg hne2, ← hds,
    parseDigitsAux_natToDigits n 0]
  simp

/-! Sorting and paging lemmas. -/

theorem insertVlanDesc_perm (x : Vlan) (l : List Vlan) :
    List.Perm (insertVlanDesc x l) (x :: l) := by
  induction l with
  | nil => exact List.Perm.refl _
  | cons y ys ih =>
      rw [insertVlanDesc]
      split
      · exact List.Perm.refl _
      · exact (ih.cons y).trans (List.Perm.swap x y ys)

theorem orderVlansDesc_perm (l : List Vlan) :
    List.Perm (orderVlansDesc l) l := by
  induction l with
  | nil => exact List.Perm.refl _
  | cons x xs ih =>
      exact (insertVlanDesc_perm x (orderVlansDesc xs)).trans (ih.cons x)

theorem insertVlanDesc_pairwise {x : Vlan} {l : List Vlan}
    (h : l.Pairwise fun a b => b.id ≤ a.id) :
    (insertVlanDesc x l).Pairwise fun a b => b.id ≤ a.id := by
  induction l with
  | nil => simp [insertVlanDesc]
  | cons y ys ih =>
      rcases List.pairwise_cons.mp h with ⟨hy, hys⟩
      rw [insertVlanDesc]
      split
      · next hle =>
          refine List.pairwise_cons.mpr ⟨?_, h⟩
          intro z hz
          rcases List.mem_cons.mp hz with rfl | hz
          · exact hle
          · exact le_trans (hy z hz) hle
      · next hgt =>
          refine List.pairwise_cons.mpr ⟨?_, ih hys⟩
          intro z hz
          have hz' : z = x ∨ z ∈ ys := by
            have := (insertVlanDesc_perm x ys).mem_iff.mp hz
            simpa using this
          rcases hz' with rfl | hz'
          · omega
          · exact hy z hz'

theorem orderVlansDesc_pairwise (l : List Vlan) :
    (orderVlansDesc l).Pairwise fun a b => b.id ≤ a.id := by
  induction l with
  | nil => simp [orderVlansDesc]
  | cons x xs ih => exact insertVlanDesc_pairwise ih

theorem orderVlansDesc_pairwise_strict {l : List Vlan}
    (hnd : (l.map Vlan.id).Nodup) :
    (orderVlansDesc l).Pairwise fun a b => b.id < a.id := by
  have hperm : List.Perm ((orderVlansDesc l).map Vlan.id) (l.map Vlan.id) :=
    (orderVlansDesc_perm l).map Vlan.id
  have hnd' : ((orderVlansDesc l).map Vlan.id).Nodup :=
    hperm.nodup_iff.mpr hnd
  have hne : (orderVlansDesc l).Pairwise fun a b => a.id ≠ b.id :=
    List.pairwise_map.mp hnd'
  exact ((orderVlansDesc_pairwise l).and hne).imp
    fun hab => lt_of_le_of_ne hab.1 (Ne.symm hab.2)

theorem filter_le_of_pairwise_desc :
    ∀ (l : List Vlan), (l.Pairwise fun a b => b.id < a.id) →
      ∀ (j : Nat) (v : Vlan), l[j]? = some v →
      l.filter (fun x => decide (x.id ≤ v.id)) = l.drop j
  | [], _, j, v, h => by simp at h
  | x :: xs, hp, 0, v, h => by
      have hv : x = v := by simpa using h
      subst hv
      rw [List.drop_zero]
      apply List.filter_eq_self.mpr
      intro a ha
      rcases List.mem_cons.mp ha with rfl | ha
      · simp
      · have := (List.pairwise_cons.mp hp).1 a ha
        simp
        omega
  | x :: xs, hp, j + 1, v, h => by
      have h' : xs[j]? = some v := by simpa using h
      have hmem : v ∈ xs := List.getElem?_mem h'
      have hlt : v.id < x.id := (List.pairwise_cons.mp hp).1 v hmem
      have hx : (decide (x.id ≤ v.id)) = false := by
        simp
        omega
      rw [List.drop_succ_cons, List.filter_cons, hx]
      simp only [Bool.false_eq_true, if_false]
      exact filter_le_of_pairwise_desc xs (List.pairwise_cons.mp hp).2 j v h'

theorem vlansPage_eq (db : List Vlan) (t : Option Int) (size : Nat) :
    vlansPage db t size =
      { items := (pageSource db t).take size,
        next_token := if size < (pageSource db t).length
          then ((pageSource db t)[size]?).map Vlan.id else none } := by
  rw [vlansPage]
  by_cases h : size < (pageSource db t).length
  · obtain ⟨v, hv⟩ : ∃ v, (pageSource db t)[size]? = some v :=
      ⟨_, List.getElem?_eq_getElem h⟩
    have htake : (pageSource db t).take (size + 1) =
        (pageSource db t).take size ++ [v] := by
      rw [List.take_succ, hv]
      rfl
    have hlen : size < ((pageSource db t).take (size + 1)).length := by
      rw [List.length_take]
      omega
    rw [if_pos hlen, if_pos h, htake, List.dropLast_concat,
      List.getLast?_concat, hv]
  · have hle : (pageSource db t).length ≤ size := by omega
    have hlen : ¬ size < ((pageSource db t).take (size + 1)).length := by
      rw [List.length_take]
      omega
    rw [if_neg hlen, if_neg h, List.take_of_length_le (by omega),
      List.take_of_length_le hle]

theorem pageSource_natCast (db : List Vlan) (t : Nat) :
    pageSource db (some (t : Int)) =
      (orderVlansDesc db).filter fun v => decide (v.id ≤ t) := by
  have hfun : (fun v : Vlan => decide ((v.id : Int) ≤ (t : Int))) =
      fun v : Vlan => decide (v.id ≤ t) := by
    funext v
    rw [decide_eq_decide]
    exact Nat.cast_le
  rw [pageSource, hfun]

theorem paginateVlansAux_join (db : List Vlan) (size : Nat) (hsz : 1 ≤ size)
    (hl : (orderVlansDesc db).Pairwise fun a b => b.id < a.id) :
    ∀ (fuel i : Nat) (tok : Option Nat),
      (orderVlansDesc db).length - i < fuel →
      pageSource db (tok.map (Nat.cast : Nat → Int)) =
        (orderVlansDesc db).drop i →
      (paginateVlansAux db size fuel tok).flatten =
        (orderVlansDesc db).drop i := by
  intro fuel
  induction fuel with
  | zero =>
      intro i tok h _
      omega
  | succ fuel ih =>
      intro i tok hfuel hsrc
      have hlist : vlans_list db (tok.map pyStrNat) size =
          .ok (vlansPage db (tok.map (Nat.cast : Nat → Int)) size) := by
        cases tok with
        | none => rfl
        | some t => simp only [Option.map_some', vlans_list, pyInt_pyStrNat]
      rw [paginateVlansAux]
      simp only [hlist, vlansPage_eq, hsrc]
      have hdroplen : ((orderVlansDesc db).drop i).length =
          (orderVlansDesc db).length - i := List.length_drop i _
      by_cases h : size < ((orderVlansDesc db).drop i).length
      · obtain ⟨v, hv⟩ : ∃ v, ((orderVlansDesc db).drop i)[size]? = some v :=
          ⟨_, List.getElem?_eq_getElem h⟩
        have hvl : (orderVlansDesc db)[i + size]? = some v := by
          rw [← List.getElem?_drop]
          exact hv
        have hsrc' : pageSource db ((some v.id).map (Nat.cast : Nat → Int)) =
            (orderVlansDesc db).drop (i + size) := by
          simp only [Option.map_some']
          rw [pageSource_natCast]
          exact filter_le_of_pairwise_desc _ hl (i + size) v hvl
        have hlen' : (orderVlansDesc db).length - (i + size) < fuel := by
          omega
        simp only [if_pos h, hv, Option.map_some', List.flatten_cons]
        rw [ih (i + size) (some v.id) hlen' hsrc',
          show (orderVlansDesc db).drop (i + size) =
            ((orderVlansDesc db).drop i).drop size from by
              rw [List.drop_drop, Nat.add_comm]]
        exact List.take_append_drop size _
      · simp only [if_neg h, List.flatten_cons]
        rw [List.take_of_length_le (by omega)]
        simp

/-- Claim C7: iterating `list` with page size at least 1 from
`token=None`, following each next token (the string form of the popped
row's primary key) until it is absent, yields exactly the stored rows,
in strictly descending id order, each exactly once; each call keeps
`size` of the `size + 1` fetched rows and reports a next token — the
popped extra row's key — exactly when more rows remain; and a numeric
token string parses back to the key it printed. -/
theorem vlans_list_pagination (db : List Vlan) (size : Nat)
    (hnd : (db.map Vlan.id).Nodup) (hsz : 1 ≤ size) :
    (paginateVlans db size).flatten = orderVlansDesc db ∧
    List.Perm (paginateVlans db size).flatten db ∧
    ((orderVlansDesc db).Pairwise fun a b => b.id < a.id) ∧
    (∀ t, vlansPage db t size =
      { items := (pageSource db t).take size,
        next_token := if size < (pageSource db t).length
          then ((pageSource db t)[size]?).map Vlan.id else none }) ∧
    (∀ n : Nat, pyInt (pyStrNat n) = some (n : Int)) := by
  have hl := orderVlansDesc_pairwise_strict hnd
  have hlen : (orderVlansDesc db).length = db.length :=
    (orderVlansDesc_perm db).length_eq
  have hjoin : (paginateVlans db size).flatten = orderVlansDesc db := by
    rw [paginateVlans]
    have := paginateVlansAux_join db size hsz hl (db.length + 1) 0 none
      (by omega) (by simp [pageSource])
    simpa using this
  exact ⟨hjoin, hjoin ▸ orderVlansDesc_perm db, hl,
    fun t => vlansPage_eq db t size, pyInt_pyStrNat⟩

/-- Witness for claim C7: three rows with ids 1, 3, 2 paged with size 2
come back as the descending sequence of all three rows. -/
theorem vlans_list_pagination_witness :
    (paginateVlans [⟨1, false⟩, ⟨3, false⟩, ⟨2, true⟩] 2).flatten =
      orderVlansDesc [⟨1, false⟩, ⟨3, false⟩, ⟨2, true⟩] ∧
    List.Perm (paginateVlans [⟨1, false⟩, ⟨3, false⟩, ⟨2, true⟩] 2).flatten
      [⟨1, false⟩, ⟨3, false⟩, ⟨2, true⟩] ∧
    ((orderVlansDesc [⟨1, false⟩, ⟨3, false⟩, ⟨2, true⟩]).Pairwise
      fun a b => b.id < a.id) ∧
    (∀ t, vlansPage [⟨1, false⟩, ⟨3, false⟩, ⟨2, true⟩] t 2 =
      { items :=
          (pageSource [⟨1, false⟩, ⟨3, false⟩, ⟨2, true⟩] t).take 2,
        next_token :=
          if 2 < (pageSource [⟨1, false⟩, ⟨3, false⟩, ⟨2, true⟩] t).length
          then ((pageSource [⟨1, false⟩, ⟨3, false⟩, ⟨2, true⟩] t)[2]?).map
            Vlan.id
          else none }) ∧
    (∀ n : Nat, pyInt (pyStrNat n) = some (n : Int)) :=
  vlans_list_pagination [⟨1, false⟩, ⟨3, false⟩, ⟨2, true⟩] 2 (by decide)
    (by decide)

/-- Claim C10: `list` applies `int()` to a present token without
guarding, so every token string outside the integer syntax makes the
call fail with the uncaught conversion error instead of returning a page
or a clean validation error. -/
theorem vlans_list_bad_token (db : List Vlan) (size : Nat) (ts : String)
    (h : pyInt ts = none) :
    vlans_list db (some ts) size = .error .valueError := by
  simp only [vlans_list, h]

/-- Witness for claim C10 at the non-numeric token string abc. -/
theorem vlans_list_bad_token_witness :
    vlans_list [⟨1, false⟩] (some "abc") 1 = .error .valueError :=
  vlans_list_bad_token [⟨1, false⟩] 1 "abc" rfl

/-- Claim C9: through `from_cache_or_execute`, a service without a cache
executes the method on every call; with a cache, a populated slot is
returned on every call without executing (the call's planned result — and
so its arguments — are ignored); and from an empty slot the method
executes on call j exactly when every earlier call produced None, call j
returns the first non-None result produced at or before it (or None),
and the final slot holds the first non-None result once one occurred. -/
theorem from_cache_or_execute_spec (v : α) (rs : List (Option α)) :
    (from_cache_or_execute_run none rs).1 = (rs.map fun r => (true, r)) ∧
    (from_cache_or_execute_run (some (some v)) rs).1 =
      (rs.map fun _ => (false, some v)) ∧
    (∀ j, (from_cache_or_execute_run (some none) rs).1.get? j =
      (rs.get? j).map fun rj =>
        match (rs.take j).findSome? id with
        | none => (true, rj)
        | some w => (false, some w)) ∧
    (from_cache_or_execute_run (some none) rs).2 =
      some (rs.findSome? id) :=
  ⟨by rw [run_no_cache], by rw [run_populated_slot],
    (run_empty_slot rs).1, (run_empty_slot rs).2⟩

end Maas
